import Mathlib

/-!
Verification of the HC-SR04 standoff controller
(`src/week01/standoff/src/hc-sr04.cpp`).

The program runs on an ATmega32U4 (AVR, 8-bit, `int` is 16 bits).  It is a
single main loop plus one input-capture interrupt handler:

* `CommandPing` arms the capture hardware and sets
  `pulseState = PLS_WAITING_LOW`;
* `ISR(TIMER3_CAPT_vect)` latches `ICR3` into `pulseStart` on the first edge
  (state `PLS_WAITING_LOW -> PLS_WAITING_HIGH`) and into `pulseEnd` on the
  second (state `PLS_WAITING_HIGH -> PLS_CAPTURED`);
* `loop` schedules a ping every `PING_INTERVAL` ms while idle, and on
  `PLS_CAPTURED` consumes the sample: computes the 16-bit wraparound pulse
  width, converts counts to microseconds, feeds a 5-slot rolling window,
  applies a mean filter, a proportional controller with dead band, and
  commands the motors.

Machine integers are modelled as `Nat` with explicit reductions modulo
`2^16` / `2^32`; AVR float arithmetic in the controller is modelled with
exact rationals.  Shared `volatile` state and the two execution contexts
(main loop, ISR) are modelled as a step relation over an explicit system
state, with ISR invocations and whole main-loop iterations as the events.
-/

/-- Modulus of the C type `uint32_t`. -/
def UINT32_MOD : Nat := 4294967296

/-- Modulus of the C type `uint16_t` (timer 3 is a 16-bit counter). -/
def UINT16_MOD : Nat := 65536

/-- Wraparound subtraction of two `uint32_t` values, `a - b` in C. -/
def u32sub (a b : Nat) : Nat :=
  (a % UINT32_MOD + (UINT32_MOD - b % UINT32_MOD)) % UINT32_MOD

/-- Wraparound subtraction of two `uint16_t` values, `a - b` in C. -/
def u16sub (a b : Nat) : Nat :=
  (a % UINT16_MOD + (UINT16_MOD - b % UINT16_MOD)) % UINT16_MOD

/-- States of the echo-capture machine:
`enum PULSE_STATE {PLS_IDLE, PLS_WAITING_LOW, PLS_WAITING_HIGH, PLS_CAPTURED}`. -/
inductive PULSE_STATE where
  | PLS_IDLE
  | PLS_WAITING_LOW
  | PLS_WAITING_HIGH
  | PLS_CAPTURED
  deriving DecidableEq, Repr

open PULSE_STATE

/-- Ping period: `const uint32_t PING_INTERVAL = 100; //ms`. -/
def PING_INTERVAL : Nat := 100

/-- The comparator handed to `qsort`:
`return ( *(uint32_t*)a - *(uint32_t*)b );`.
The `uint32_t` difference wraps modulo `2^32` and is then converted to `int`,
which on AVR is 16 bits, so the result is the low 16 bits of the wrapped
difference read as a signed 16-bit integer. -/
def cmpfunc (a b : Nat) : Int :=
  let d := u32sub a b
  let low := d % 65536
  if low < 32768 then (low : Int) else (low : Int) - 65536

/-- Inserts `x` into `l` before the first element `y` with `cmpfunc x y <= 0`.
Building block of the sorting model below. -/
def insertSorted (x : Nat) : List Nat → List Nat
  | [] => [x]
  | y :: ys => if cmpfunc x y ≤ 0 then x :: y :: ys else y :: insertSorted x ys

/-- Model of `qsort(values, 5, sizeof(uint32_t), cmpfunc)`: the array contents
after the call, namely the input reordered so that `cmpfunc` is satisfied
between neighbours (an insertion sort; `qsort` with a consistent comparator
produces a reordering with the same ordering property). -/
def qsortModel : List Nat → List Nat
  | [] => []
  | x :: xs => insertSorted x (qsortModel xs)

/-- `uint32_t median(uint32_t *values)`: sorts the caller's 5-element array in
place with `qsort` and returns `values[2]`. -/
def median (values : List Nat) : Nat :=
  (qsortModel values).getD 2 0

/-- The contents of the caller's array after `median` returns.  `qsort` sorts
the array the caller passed in, not a copy. -/
def medianPost (values : List Nat) : List Nat :=
  qsortModel values

/-- `uint32_t mean(uint32_t *values)`: sums the five `uint32_t` slots (the sum
wraps modulo `2^32`) and divides by 5.  The source divides by the literal
`5.0` and truncates the float quotient back to `uint32_t`; for sums below
`2^24` (all reachable here, since each slot is below `2^16`) the float
quotient truncates to exactly the integer quotient, so the model uses `Nat`
floor division. -/
def mean (values : List Nat) : Nat :=
  let sum := (values.getD 0 0 + values.getD 1 0 + values.getD 2 0 +
              values.getD 3 0 + values.getD 4 0) % UINT32_MOD
  sum / 5

/-- `uint16_t pulseLengthTimerCounts = pulseEnd - pulseStart;`
(wraparound subtraction of the two captured 16-bit counter values). -/
def pulseLengthTimerCounts (startCount endCount : Nat) : Nat :=
  u16sub endCount startCount

/-- `uint32_t pulseLengthUS = pulseLengthTimerCounts * 4;`
`pulseLengthTimerCounts` is `uint16_t`; on AVR it promotes to the 16-bit
`unsigned int`, so the multiplication wraps modulo `2^16` before the widening
assignment to `uint32_t`. -/
def pulseLengthUS (counts : Nat) : Nat :=
  counts % UINT16_MOD * 4 % UINT16_MOD

/-- `float distancePulse = pulseLengthUS / 58.0;` (single-sample distance in
cm), modelled with exact rationals. -/
def distancePulse (us : Nat) : ℚ :=
  (us : ℚ) / 58

/-- The proportional controller with dead band applied to the filtered
distance (lines 159-166):
`err = filteredDistance - 20.0; speed = kp * err;` with `kp = 10.0`, then
`if(abs(speed) <= 5) speed = 0;`. -/
def controllerSpeed (filteredDistance : ℚ) : ℚ :=
  let err := filteredDistance - 20
  let kp : ℚ := 10
  let speed := kp * err
  if |speed| ≤ 5 then 0 else speed

/-- `currIndex += (currIndex == 4) ? -4 : 1;` — `currIndex` is a C `int`. -/
def indexStep (i : Int) : Int :=
  if i = 4 then i - 4 else i + 1

/-- The full mutable state shared by the main loop and the ISR, plus ghost
bookkeeping (`triggerCount`, `captureCount`, `motorCmds`) recording how many
pings were commanded, how many captures were consumed, and every effort value
passed to `motors.setEfforts`. -/
structure SysState where
  pulseState : PULSE_STATE
  pulseStart : Nat
  pulseEnd : Nat
  lastPing : Nat
  filterValues : List Nat
  currIndex : Int
  triggerCount : Nat
  captureCount : Nat
  motorCmds : List ℚ
  deriving Repr

/-- State after `setup()` has run at time `t0 = millis()`:
`pulseState = PLS_IDLE`, `pulseStart = pulseEnd = 0`,
`filterValues[5] = {0,0,0,0,0}`, `currIndex = 0`, `lastPing = millis()`. -/
def initState (t0 : Nat) : SysState :=
  { pulseState := PLS_IDLE
    pulseStart := 0
    pulseEnd := 0
    lastPing := t0 % UINT32_MOD
    filterValues := List.replicate 5 0
    currIndex := 0
    triggerCount := 0
    captureCount := 0
    motorCmds := [] }

/-- `void CommandPing(int trigPin)`: arms the capture hardware (register
writes not modelled) and sets `pulseState = PLS_WAITING_LOW`. -/
def CommandPing (s : SysState) : SysState :=
  { s with pulseState := PLS_WAITING_LOW }

/-- `ISR(TIMER3_CAPT_vect)`: on a capture interrupt with counter value `icr`
(the 16-bit `ICR3`), latch the start or end count according to the state; in
any other state the handler falls through without touching anything. -/
def isrStep (s : SysState) (icr : Nat) : SysState :=
  if s.pulseState = PLS_WAITING_LOW then
    { s with pulseStart := icr % UINT16_MOD, pulseState := PLS_WAITING_HIGH }
  else if s.pulseState = PLS_WAITING_HIGH then
    { s with pulseEnd := icr % UINT16_MOD, pulseState := PLS_CAPTURED }
  else s

/-- First half of `loop()` (lines 113-119): if at least `PING_INTERVAL` ms
elapsed since `lastPing` (uint32 wraparound difference) and the machine is
idle, record the time and command a ping. -/
def loopTriggerBranch (s : SysState) (currTime : Nat) : SysState :=
  if PING_INTERVAL ≤ u32sub currTime s.lastPing ∧ s.pulseState = PLS_IDLE then
    CommandPing { s with lastPing := currTime % UINT32_MOD,
                         triggerCount := s.triggerCount + 1 }
  else s

/-- Body of the `pulseState == PLS_CAPTURED` branch of `loop()`
(lines 121-168): return to idle, read the sample, convert counts to
microseconds, store into the rolling window, advance the index, filter with
`mean`, run the proportional controller, and command the motors. -/
def consumeCapture (s : SysState) : SysState :=
  let counts := pulseLengthTimerCounts s.pulseStart s.pulseEnd
  let us := pulseLengthUS counts
  let fv := s.filterValues.set s.currIndex.toNat us
  let filteredDistance : ℚ := (mean fv : ℚ) / 58
  let speed := controllerSpeed filteredDistance
  { s with pulseState := PLS_IDLE
           filterValues := fv
           currIndex := indexStep s.currIndex
           captureCount := s.captureCount + 1
           motorCmds := speed :: s.motorCmds }

/-- Second half of `loop()` (lines 121-168): consume a captured sample if one
is ready, otherwise do nothing. -/
def loopCaptureBranch (s : SysState) : SysState :=
  if s.pulseState = PLS_CAPTURED then consumeCapture s else s

/-- One whole iteration of `void loop()` at `millis() = currTime`. -/
def loopStep (s : SysState) (currTime : Nat) : SysState :=
  loopCaptureBranch (loopTriggerBranch s currTime)

/-- An event of the interleaved execution: a capture interrupt (with the
latched 16-bit counter value) or one main-loop iteration (at a given
`millis()` reading).  The loop body is atomic in this model; interrupts are
interleaved between iterations. -/
inductive Event where
  | edge (icr : Nat)
  | loopIter (currTime : Nat)

/-- One step of the interleaved system. -/
def step (s : SysState) : Event → SysState
  | .edge icr => isrStep s icr
  | .loopIter t => loopStep s t

/-- Running the system over a sequence of events. -/
def run (s : SysState) (es : List Event) : SysState :=
  es.foldl step s

/-- Successor in the intended capture cycle
Idle -> WaitingRisingEdge -> WaitingFallingEdge -> Captured -> Idle. -/
def cycleNext : PULSE_STATE → PULSE_STATE
  | PLS_IDLE => PLS_WAITING_LOW
  | PLS_WAITING_LOW => PLS_WAITING_HIGH
  | PLS_WAITING_HIGH => PLS_CAPTURED
  | PLS_CAPTURED => PLS_IDLE

/-- Number of pings in flight, read off the state: 0 when idle, 1 otherwise. -/
def inFlight (s : SysState) : Nat :=
  if s.pulseState = PLS_IDLE then 0 else 1

/-- The counting invariant behind scheduler back-pressure. -/
def countInv (s : SysState) : Prop :=
  s.triggerCount = s.captureCount + inFlight s

/- ### Helper lemmas -/

/-- The ISR latches the rising edge: from `PLS_WAITING_LOW` it records
`pulseStart` and moves to `PLS_WAITING_HIGH`. -/
lemma isrStep_of_waiting_low (s : SysState) (icr : Nat)
    (h : s.pulseState = PLS_WAITING_LOW) :
    isrStep s icr =
      { s with pulseStart := icr % UINT16_MOD, pulseState := PLS_WAITING_HIGH } := by
  unfold isrStep
  rw [if_pos h]

/-- The ISR latches the falling edge: from `PLS_WAITING_HIGH` it records
`pulseEnd` and moves to `PLS_CAPTURED`. -/
lemma isrStep_of_waiting_high (s : SysState) (icr : Nat)
    (h : s.pulseState = PLS_WAITING_HIGH) :
    isrStep s icr =
      { s with pulseEnd := icr % UINT16_MOD, pulseState := PLS_CAPTURED } := by
  unfold isrStep
  rw [if_neg (by rw [h]; decide), if_pos h]

/-- The ISR body falls through outside the two waiting states. -/
lemma isrStep_frame (s : SysState) (icr : Nat)
    (h : s.pulseState = PLS_IDLE ∨ s.pulseState = PLS_CAPTURED) :
    isrStep s icr = s := by
  unfold isrStep
  rcases h with h | h <;>
    rw [if_neg (by rw [h]; decide), if_neg (by rw [h]; decide)]

/-- A generic invariant-preservation principle for runs of the system. -/
lemma run_preserves (P : SysState → Prop)
    (hstep : ∀ (s : SysState) (e : Event), P s → P (step s e)) :
    ∀ (es : List Event) (s : SysState), P s → P (run s es) := by
  intro es
  induction es with
  | nil => intro s h; exact h
  | cons e es ih => intro s h; exact ih (step s e) (hstep s e h)

/-- Pinging sets the state to `PLS_WAITING_LOW`. -/
lemma CommandPing_pulseState (s : SysState) :
    (CommandPing s).pulseState = PLS_WAITING_LOW := rfl

/-- Pinging touches no field other than `pulseState`. -/
lemma CommandPing_frame (s : SysState) :
    (CommandPing s).pulseStart = s.pulseStart ∧
    (CommandPing s).pulseEnd = s.pulseEnd ∧
    (CommandPing s).lastPing = s.lastPing ∧
    (CommandPing s).filterValues = s.filterValues ∧
    (CommandPing s).currIndex = s.currIndex ∧
    (CommandPing s).triggerCount = s.triggerCount ∧
    (CommandPing s).captureCount = s.captureCount ∧
    (CommandPing s).motorCmds = s.motorCmds :=
  ⟨rfl, rfl, rfl, rfl, rfl, rfl, rfl, rfl⟩

/-- Field values of the state produced by consuming a capture. -/
lemma consumeCapture_proj (s : SysState) :
    (consumeCapture s).pulseState = PLS_IDLE ∧
    (consumeCapture s).filterValues =
      s.filterValues.set s.currIndex.toNat
        (pulseLengthUS (pulseLengthTimerCounts s.pulseStart s.pulseEnd)) ∧
    (consumeCapture s).currIndex = indexStep s.currIndex ∧
    (consumeCapture s).triggerCount = s.triggerCount ∧
    (consumeCapture s).captureCount = s.captureCount + 1 ∧
    (consumeCapture s).lastPing = s.lastPing :=
  ⟨rfl, rfl, rfl, rfl, rfl, rfl⟩

/-- Case equation for the trigger branch when the guard holds. -/
lemma loopTriggerBranch_pos (s : SysState) (t : Nat)
    (hg : PING_INTERVAL ≤ u32sub t s.lastPing ∧ s.pulseState = PLS_IDLE) :
    loopTriggerBranch s t =
      CommandPing { s with lastPing := t % UINT32_MOD,
                           triggerCount := s.triggerCount + 1 } := by
  unfold loopTriggerBranch
  rw [if_pos hg]

/-- Case equation for the trigger branch when the guard fails. -/
lemma loopTriggerBranch_neg (s : SysState) (t : Nat)
    (hg : ¬(PING_INTERVAL ≤ u32sub t s.lastPing ∧ s.pulseState = PLS_IDLE)) :
    loopTriggerBranch s t = s := by
  unfold loopTriggerBranch
  rw [if_neg hg]

/-- Case equation for the capture branch when a sample is ready. -/
lemma loopCaptureBranch_pos (s : SysState) (h : s.pulseState = PLS_CAPTURED) :
    loopCaptureBranch s = consumeCapture s := by
  unfold loopCaptureBranch
  rw [if_pos h]

/-- Case equation for the capture branch when no sample is ready. -/
lemma loopCaptureBranch_neg (s : SysState) (h : s.pulseState ≠ PLS_CAPTURED) :
    loopCaptureBranch s = s := by
  unfold loopCaptureBranch
  rw [if_neg h]

/-- A full loop iteration from a state with the trigger guard true: the ping
is commanded and the capture branch does not fire. -/
lemma loopStep_trigger (s : SysState) (t : Nat)
    (hg : PING_INTERVAL ≤ u32sub t s.lastPing ∧ s.pulseState = PLS_IDLE) :
    loopStep s t =
      CommandPing { s with lastPing := t % UINT32_MOD,
                           triggerCount := s.triggerCount + 1 } := by
  unfold loopStep
  rw [loopTriggerBranch_pos s t hg, loopCaptureBranch_neg _ (by rw [CommandPing_pulseState]; decide)]

/-- A full loop iteration from a captured state: the trigger guard is false
and the sample is consumed. -/
lemma loopStep_consume (s : SysState) (t : Nat)
    (h : s.pulseState = PLS_CAPTURED) :
    loopStep s t = consumeCapture s := by
  unfold loopStep
  rw [loopTriggerBranch_neg s t (by rintro ⟨-, h2⟩; rw [h] at h2; cases h2),
      loopCaptureBranch_pos s h]

/-- A full loop iteration that neither triggers nor consumes is the
identity. -/
lemma loopStep_id (s : SysState) (t : Nat)
    (hg : ¬(PING_INTERVAL ≤ u32sub t s.lastPing ∧ s.pulseState = PLS_IDLE))
    (hc : s.pulseState ≠ PLS_CAPTURED) :
    loopStep s t = s := by
  unfold loopStep
  rw [loopTriggerBranch_neg s t hg, loopCaptureBranch_neg s hc]

/-- Every step of the system preserves the counting invariant
`triggerCount = captureCount + inFlight`. -/
lemma countInv_step (s : SysState) (e : Event) (h : countInv s) :
    countInv (step s e) := by
  cases e with
  | edge icr =>
    show countInv (isrStep s icr)
    cases hps : s.pulseState with
    | PLS_IDLE => rw [isrStep_frame s icr (Or.inl hps)]; exact h
    | PLS_CAPTURED => rw [isrStep_frame s icr (Or.inr hps)]; exact h
    | PLS_WAITING_LOW =>
      rw [isrStep_of_waiting_low s icr hps]
      unfold countInv inFlight at h ⊢
      rw [hps] at h
      simpa using h
    | PLS_WAITING_HIGH =>
      rw [isrStep_of_waiting_high s icr hps]
      unfold countInv inFlight at h ⊢
      rw [hps] at h
      simpa using h
  | loopIter t =>
    show countInv (loopStep s t)
    by_cases hg : PING_INTERVAL ≤ u32sub t s.lastPing ∧ s.pulseState = PLS_IDLE
    · rw [loopStep_trigger s t hg]
      unfold countInv inFlight at h ⊢
      rw [hg.2] at h
      simp only [if_pos rfl] at h
      simpa [CommandPing] using h
    · by_cases hc : s.pulseState = PLS_CAPTURED
      · rw [loopStep_consume s t hc]
        unfold countInv inFlight at h ⊢
        rw [hc] at h
        simp only [(consumeCapture_proj s).2.2.2.1, (consumeCapture_proj s).2.2.2.2.1,
                   (consumeCapture_proj s).1]
        simp at h ⊢
        omega
      · rw [loopStep_id s t hg hc]; exact h

/-- The counting invariant holds at startup. -/
lemma countInv_init (t0 : Nat) : countInv (initState t0) := by
  unfold countInv inFlight initState
  simp

/- ### Claims -/

/-- C5: the filter on the window [100,100,100,100,500]. -/
theorem filter_example :
    mean [100, 100, 100, 100, 500] = 180 ∧
    median [100, 100, 100, 100, 500] = 100 := by
  constructor <;> decide

/-- C6: startCount 1000, endCount 1500 gives 500 counts, 2000 microseconds,
and a single-sample distance of 2000/58, within 0.01 of 34.48. -/
theorem no_rollover_example :
    pulseLengthTimerCounts 1000 1500 = 500 ∧
    pulseLengthUS (pulseLengthTimerCounts 1000 1500) = 2000 ∧
    distancePulse 2000 = 2000 / 58 ∧
    |distancePulse 2000 - 3448 / 100| < 1 / 100 := by
  refine ⟨by decide, by decide, rfl, ?_⟩
  rw [show distancePulse 2000 = 2000 / 58 from rfl, abs_lt]
  norm_num

/-- C3: the pulse width is the 16-bit wraparound difference
`pulseEnd - pulseStart`; at startCount 65500, endCount 100 it is 136, and for
any pulse shorter than one rollover period the wraparound difference recovers
the true duration. -/
theorem wraparound_duration :
    pulseLengthTimerCounts 65500 100 = 136 ∧
    ∀ s d : Nat, s < UINT16_MOD → d < UINT16_MOD →
      pulseLengthTimerCounts s ((s + d) % UINT16_MOD) = d := by
  refine ⟨by decide, ?_⟩
  intro s d hs hd
  simp only [pulseLengthTimerCounts, u16sub, UINT16_MOD] at *
  omega

/-- Witness for `wraparound_duration` at startCount 65500 and true duration
136 counts (the rollover example). -/
theorem wraparound_duration_witness :
    pulseLengthTimerCounts 65500 ((65500 + 136) % UINT16_MOD) = 136 :=
  wraparound_duration.2 65500 136 (by decide) (by decide)

/-- C4: the commanded speed is `10 * (d - 20)` dead-banded to exactly 0 when
its absolute value is at most 5; error 0 gives 0, error 0.3 gives 3 which is
dead-banded to 0, error 1 gives 10 which is forwarded unmodified. -/
theorem controller_deadband :
    (∀ d : ℚ, controllerSpeed d =
      if |10 * (d - 20)| ≤ 5 then 0 else 10 * (d - 20)) ∧
    controllerSpeed 20 = 0 ∧
    controllerSpeed (20 + 3 / 10) = 0 ∧
    controllerSpeed 21 = 10 := by
  refine ⟨fun d => rfl, ?_, ?_, ?_⟩ <;> norm_num [controllerSpeed]

/-- C1: under ISR edge events and main-loop iterations, `pulseState` moves
only along the cycle Idle -> WaitingRisingEdge -> WaitingFallingEdge ->
Captured -> Idle (each event advances the state by exactly one cycle step or
leaves it unchanged), with the transitions driven as in the source:
`CommandPing` sets `PLS_WAITING_LOW`, the ISR advances `PLS_WAITING_LOW` to
`PLS_WAITING_HIGH` and `PLS_WAITING_HIGH` to `PLS_CAPTURED`, and the main
loop returns `PLS_CAPTURED` to `PLS_IDLE` on consumption. -/
theorem fsm_cycle (s : SysState) (e : Event) (icr t : Nat) :
    ((step s e).pulseState = s.pulseState ∨
      (step s e).pulseState = cycleNext s.pulseState) ∧
    (CommandPing s).pulseState = PLS_WAITING_LOW ∧
    (s.pulseState = PLS_WAITING_LOW →
      (isrStep s icr).pulseState = PLS_WAITING_HIGH) ∧
    (s.pulseState = PLS_WAITING_HIGH →
      (isrStep s icr).pulseState = PLS_CAPTURED) ∧
    (s.pulseState = PLS_CAPTURED → (loopStep s t).pulseState = PLS_IDLE) := by
  refine ⟨?_, rfl, ?_, ?_, ?_⟩
  · cases e with
    | edge i =>
      show (isrStep s i).pulseState = _ ∨ (isrStep s i).pulseState = _
      cases hps : s.pulseState with
      | PLS_IDLE => left; rw [isrStep_frame s i (Or.inl hps)]; exact hps
      | PLS_CAPTURED => left; rw [isrStep_frame s i (Or.inr hps)]; exact hps
      | PLS_WAITING_LOW => right; rw [isrStep_of_waiting_low s i hps]; rfl
      | PLS_WAITING_HIGH => right; rw [isrStep_of_waiting_high s i hps]; rfl
    | loopIter u =>
      show (loopStep s u).pulseState = _ ∨ (loopStep s u).pulseState = _
      by_cases hg : PING_INTERVAL ≤ u32sub u s.lastPing ∧ s.pulseState = PLS_IDLE
      · right
        rw [loopStep_trigger s u hg, CommandPing_pulseState, hg.2]
        rfl
      · by_cases hc : s.pulseState = PLS_CAPTURED
        · right
          rw [loopStep_consume s u hc, (consumeCapture_proj s).1, hc]
          rfl
        · left
          rw [loopStep_id s u hg hc]
  · intro h
    rw [isrStep_of_waiting_low s icr h]
  · intro h
    rw [isrStep_of_waiting_high s icr h]
  · intro h
    rw [loopStep_consume s t h]
    exact (consumeCapture_proj s).1

/-- Witness for `fsm_cycle`: the three driven transitions at concrete
states. -/
theorem fsm_cycle_witness :
    (isrStep { initState 0 with pulseState := PLS_WAITING_LOW } 7).pulseState =
      PLS_WAITING_HIGH ∧
    (isrStep { initState 0 with pulseState := PLS_WAITING_HIGH } 9).pulseState =
      PLS_CAPTURED ∧
    (loopStep { initState 0 with pulseState := PLS_CAPTURED } 3).pulseState =
      PLS_IDLE :=
  ⟨(fsm_cycle { initState 0 with pulseState := PLS_WAITING_LOW }
      (Event.edge 7) 7 3).2.2.1 rfl,
   (fsm_cycle { initState 0 with pulseState := PLS_WAITING_HIGH }
      (Event.edge 9) 9 3).2.2.2.1 rfl,
   (fsm_cycle { initState 0 with pulseState := PLS_CAPTURED }
      (Event.loopIter 3) 7 3).2.2.2.2 rfl⟩

/-- C2: a ping is commanded only when the machine is idle and at least
`PING_INTERVAL` ms elapsed since the last ping, and over any run from startup
the number of pings commanded never exceeds the number of consumed captures
plus one. -/
theorem trigger_backpressure :
    (∀ (t0 : Nat) (es : List Event),
      (run (initState t0) es).triggerCount ≤
        (run (initState t0) es).captureCount + 1) ∧
    ∀ (s : SysState) (t : Nat),
      (loopStep s t).triggerCount ≠ s.triggerCount →
        s.pulseState = PLS_IDLE ∧ PING_INTERVAL ≤ u32sub t s.lastPing := by
  constructor
  · intro t0 es
    have h := run_preserves countInv countInv_step es (initState t0)
      (countInv_init t0)
    unfold countInv inFlight at h
    split at h <;> omega
  · intro s t hne
    by_cases hg : PING_INTERVAL ≤ u32sub t s.lastPing ∧ s.pulseState = PLS_IDLE
    · exact ⟨hg.2, hg.1⟩
    · exfalso
      apply hne
      by_cases hc : s.pulseState = PLS_CAPTURED
      · rw [loopStep_consume s t hc]
        exact (consumeCapture_proj s).2.2.2.1
      · rw [loopStep_id s t hg hc]

/-- Witness for `trigger_backpressure`: at startup with `millis() = 100` the
loop does command a ping, and indeed the machine was idle with a full period
elapsed. -/
theorem trigger_backpressure_witness :
    (initState 0).pulseState = PLS_IDLE ∧
    PING_INTERVAL ≤ u32sub 100 (initState 0).lastPing :=
  trigger_backpressure.2 (initState 0) 100 (by decide)

/-- C7: consuming a captured sample returns the machine to idle, and a loop
iteration from any non-captured state reads no sample, commands no motor
effort, and leaves the rolling window and its index unchanged. -/
theorem consume_once (s : SysState) (t : Nat) :
    (s.pulseState = PLS_CAPTURED → (loopStep s t).pulseState = PLS_IDLE) ∧
    (s.pulseState ≠ PLS_CAPTURED →
      (loopStep s t).filterValues = s.filterValues ∧
      (loopStep s t).currIndex = s.currIndex ∧
      (loopStep s t).motorCmds = s.motorCmds) := by
  constructor
  · intro h
    rw [loopStep_consume s t h]
    exact (consumeCapture_proj s).1
  · intro h
    by_cases hg : PING_INTERVAL ≤ u32sub t s.lastPing ∧ s.pulseState = PLS_IDLE
    · rw [loopStep_trigger s t hg]
      exact ⟨rfl, rfl, rfl⟩
    · rw [loopStep_id s t hg h]
      exact ⟨rfl, rfl, rfl⟩

/-- Witness for `consume_once`: a captured state is consumed back to idle,
and an idle iteration leaves window, index and motor log untouched. -/
theorem consume_once_witness :
    (loopStep { initState 0 with pulseState := PLS_CAPTURED } 0).pulseState =
      PLS_IDLE ∧
    ((loopStep (initState 0) 0).filterValues = (initState 0).filterValues ∧
     (loopStep (initState 0) 0).currIndex = (initState 0).currIndex ∧
     (loopStep (initState 0) 0).motorCmds = (initState 0).motorCmds) :=
  ⟨(consume_once { initState 0 with pulseState := PLS_CAPTURED } 0).1 rfl,
   (consume_once (initState 0) 0).2 (by decide)⟩

/-- C10: a capture interrupt that fires while the machine is idle or already
captured leaves the whole shared state unchanged. -/
theorem isr_spurious_edge_frame (s : SysState) (icr : Nat)
    (h : s.pulseState = PLS_IDLE ∨ s.pulseState = PLS_CAPTURED) :
    isrStep s icr = s :=
  isrStep_frame s icr h

/-- Witness for `isr_spurious_edge_frame`: a stray edge at startup (idle
state) is a no-op. -/
theorem isr_spurious_edge_frame_witness :
    isrStep (initState 0) 42 = initState 0 :=
  isr_spurious_edge_frame (initState 0) 42 (Or.inl rfl)

/-- Inserting an element is a permutation of consing it. -/
lemma insertSorted_perm (x : Nat) (l : List Nat) :
    (insertSorted x l).Perm (x :: l) := by
  induction l with
  | nil => exact List.Perm.refl _
  | cons y ys ih =>
    unfold insertSorted
    split
    · exact List.Perm.refl _
    · exact (ih.cons y).trans (List.Perm.swap x y ys)

/-- The sorted array holds a permutation of the input values. -/
lemma qsortModel_perm (l : List Nat) : (qsortModel l).Perm l := by
  induction l with
  | nil => exact List.Perm.refl _
  | cons x xs ih => exact (insertSorted_perm x (qsortModel xs)).trans (ih.cons x)

/-- C8 counterexample: `median` sorts the caller's array in place (`qsort`
gets the caller's pointer, not a copy), so after the call on the window
[500,100,100,100,100] the array holds [100,100,100,100,500] — not its
original insertion order. -/
theorem median_mutates_window :
    medianPost [500, 100, 100, 100, 100] = [100, 100, 100, 100, 500] ∧
    medianPost [500, 100, 100, 100, 100] ≠ [500, 100, 100, 100, 100] := by
  constructor <;> decide

/-- C8 amended: `median` sorts the caller's array in place and returns the
element at index 2; afterwards the array holds the same multiset of values
(a permutation of the original window), but not, in general, the original
insertion order. -/
theorem median_sorts_in_place (values : List Nat) :
    (medianPost values).Perm values ∧
    median values = (medianPost values).getD 2 0 :=
  ⟨qsortModel_perm values, rfl⟩

/-- Every step of the system keeps the rolling window at exactly 5 slots and
the write index within 0..4. -/
lemma windowInv_step (s : SysState) (e : Event)
    (h : s.filterValues.length = 5 ∧ 0 ≤ s.currIndex ∧ s.currIndex ≤ 4) :
    (step s e).filterValues.length = 5 ∧
    0 ≤ (step s e).currIndex ∧ (step s e).currIndex ≤ 4 := by
  cases e with
  | edge icr =>
    show (isrStep s icr).filterValues.length = 5 ∧
      0 ≤ (isrStep s icr).currIndex ∧ (isrStep s icr).currIndex ≤ 4
    cases hps : s.pulseState with
    | PLS_IDLE => rw [isrStep_frame s icr (Or.inl hps)]; exact h
    | PLS_CAPTURED => rw [isrStep_frame s icr (Or.inr hps)]; exact h
    | PLS_WAITING_LOW => rw [isrStep_of_waiting_low s icr hps]; exact h
    | PLS_WAITING_HIGH => rw [isrStep_of_waiting_high s icr hps]; exact h
  | loopIter t =>
    show (loopStep s t).filterValues.length = 5 ∧
      0 ≤ (loopStep s t).currIndex ∧ (loopStep s t).currIndex ≤ 4
    by_cases hg : PING_INTERVAL ≤ u32sub t s.lastPing ∧ s.pulseState = PLS_IDLE
    · rw [loopStep_trigger s t hg]; exact h
    · by_cases hc : s.pulseState = PLS_CAPTURED
      · rw [loopStep_consume s t hc]
        refine ⟨?_, ?_, ?_⟩
        · rw [(consumeCapture_proj s).2.1, List.length_set]; exact h.1
        · rw [(consumeCapture_proj s).2.2.1]
          unfold indexStep
          have h2 := h.2
          split <;> omega
        · rw [(consumeCapture_proj s).2.2.1]
          unfold indexStep
          have h2 := h.2
          split <;> omega
      · rw [loopStep_id s t hg hc]; exact h

/-- C9: the index update `currIndex += (currIndex == 4) ? -4 : 1` is exactly
increment modulo 5 and keeps the index within 0..4; the window starts as
exactly 5 zero-initialized slots, and every reachable state keeps exactly 5
slots with the index within 0..4. -/
theorem window_index_invariant :
    (∀ i : Int, 0 ≤ i → i ≤ 4 →
      indexStep i = (i + 1) % 5 ∧ 0 ≤ indexStep i ∧ indexStep i ≤ 4) ∧
    (∀ t0 : Nat, (initState t0).filterValues = List.replicate 5 0) ∧
    ∀ (t0 : Nat) (es : List Event),
      (run (initState t0) es).filterValues.length = 5 ∧
      0 ≤ (run (initState t0) es).currIndex ∧
      (run (initState t0) es).currIndex ≤ 4 := by
  refine ⟨?_, fun t0 => rfl, ?_⟩
  · intro i h0 h4
    unfold indexStep
    refine ⟨?_, ?_, ?_⟩ <;> (split <;> omega)
  · intro t0 es
    refine run_preserves
      (fun s => s.filterValues.length = 5 ∧ 0 ≤ s.currIndex ∧ s.currIndex ≤ 4)
      windowInv_step es (initState t0) ⟨rfl, le_refl 0, ?_⟩
    show (0 : Int) ≤ 4
    decide

/-- Witness for `window_index_invariant`: the wrap step at index 4. -/
theorem window_index_invariant_witness :
    indexStep 4 = (4 + 1) % 5 ∧ 0 ≤ indexStep 4 ∧ indexStep 4 ≤ 4 :=
  window_index_invariant.1 4 (by decide) (by decide)
